import Mathlib

/-!
Verification of the time-weighted reward-accrual ledger (StakingRewards)
and the connect-bridge deployment command.

The StakingRewards contract source is not present in the repository
snapshot; only its test suite is.  The ledger below is therefore modelled
from the specification (each definition's doc comment says so), except
where the test suite itself pins down behaviour, in which case the tests
are the authority (notably the failure mode of an over-withdrawal, which
the tests document as a SafeMath subtraction-overflow trap).

The connect-bridge command is present in the repository
(src/publish/src/commands/connect-bridge.js) and is embedded as a pure
function from its inputs to the ordered trace of external actions it
performs.
-/

namespace SR

/-- Fixed-point scale used by the reward-per-unit arithmetic (1e18). -/
def SCALE : Nat := 1000000000000000000

/-- One day in seconds, as used by the test suite. -/
def DAY : Nat := 86400

/-- Error kinds of the ledger (spec section 7), plus the SafeMath
subtraction-overflow trap that the test suite documents as the actual
failure mode of an over-withdrawal. -/
inductive LedgerError where
  | Unauthorized
  | InvalidAmount
  | InsufficientBalance
  | InsufficientFunding
  | TransferRejected
  | AmountMismatch
  | SubtractionOverflow
  deriving DecidableEq

/-- Modelled from the spec: the full state of one reward-accrual ledger
instance — global reward state, stake state, per-account accrual
snapshots, the configured distributor identity, and the reward-asset
balance held in the ledger's custody (the ValueTransferPort's view).
Accounts are identities encoded as naturals; maps are total functions
defaulting to zero. -/
structure LedgerState where
  rewardRate : Nat
  periodFinish : Nat
  rewardsDuration : Nat
  lastUpdateTime : Nat
  rewardPerUnitStored : Nat
  totalStaked : Nat
  balance : Nat → Nat
  rewardPerUnitPaid : Nat → Nat
  accruedRewards : Nat → Nat
  rewardsDistribution : Nat
  rewardCustody : Nat

/-- Modelled from the spec: `lastTimeApplicable()` is
`min(currentTime, periodFinish)`. -/
def lastTimeApplicable (t : Nat) (s : LedgerState) : Nat :=
  min t s.periodFinish

/-- Modelled from the spec: `rewardPerUnit()` returns
`rewardPerUnitStored` unchanged when `totalStaked == 0`, otherwise
`rewardPerUnitStored + (lastTimeApplicable() - lastUpdateTime) *
rewardRate / totalStaked` at the fixed-point scale (the elapsed reward is
multiplied by SCALE before the truncating division by the stake total). -/
def rewardPerUnit (t : Nat) (s : LedgerState) : Nat :=
  if s.totalStaked = 0 then s.rewardPerUnitStored
  else s.rewardPerUnitStored
    + (lastTimeApplicable t s - s.lastUpdateTime) * s.rewardRate * SCALE / s.totalStaked

/-- Modelled from the spec: `earned(account)` is
`balance[account] * (rewardPerUnit() - rewardPerUnitPaid[account]) /
SCALE + accruedRewards[account]`. -/
def earned (t : Nat) (s : LedgerState) (a : Nat) : Nat :=
  s.balance a * (rewardPerUnit t s - s.rewardPerUnitPaid a) / SCALE + s.accruedRewards a

/-- Modelled from the spec: the checkpoint routine run as a prelude to
every mutating operation, using the pre-mutation stake total.  Folds the
elapsed reward into `rewardPerUnitStored`, advances `lastUpdateTime`,
and, when an account is given, snapshots that account's earnings. -/
def checkpoint (t : Nat) (s : LedgerState) (acct : Option Nat) : LedgerState :=
  match acct with
  | none =>
      { s with rewardPerUnitStored := rewardPerUnit t s
               lastUpdateTime := lastTimeApplicable t s }
  | some a =>
      { s with rewardPerUnitStored := rewardPerUnit t s
               lastUpdateTime := lastTimeApplicable t s
               accruedRewards := fun x => if x = a then earned t s a else s.accruedRewards x
               rewardPerUnitPaid := fun x => if x = a then rewardPerUnit t s
                                             else s.rewardPerUnitPaid x }

/-- Modelled from the spec: `stake(account, amount)` rejects a zero
amount, checkpoints the account with the pre-mutation total, pulls the
staking asset (the port's answer is the `pullOk` parameter; a rejected
pull fails with TransferRejected leaving all ledger state unchanged),
then increments the account balance and the stake total. -/
def stake (t caller amount : Nat) (pullOk : Bool) (s : LedgerState) :
    Except LedgerError LedgerState :=
  if amount = 0 then .error .InvalidAmount
  else if pullOk = false then .error .TransferRejected
  else
    let s1 := checkpoint t s (some caller)
    .ok { s1 with
          balance := fun x => if x = caller then s1.balance caller + amount else s1.balance x
          totalStaked := s1.totalStaked + amount }

/-- Modelled from the spec, with the failure mode of an over-withdrawal
taken from the test suite: `withdraw(account, amount)` rejects a zero
amount; when `amount` exceeds the account balance it fails by the
SafeMath subtraction-overflow trap (the tests assert the revert reason
"SafeMath: subtraction overflow", not an explicit InsufficientBalance
check); otherwise it checkpoints the account and then decrements the
account balance and the stake total. -/
def withdraw (t caller amount : Nat) (s : LedgerState) :
    Except LedgerError LedgerState :=
  if amount = 0 then .error .InvalidAmount
  else if s.balance caller < amount then .error .SubtractionOverflow
  else
    let s1 := checkpoint t s (some caller)
    .ok { s1 with
          balance := fun x => if x = caller then s1.balance caller - amount else s1.balance x
          totalStaked := s1.totalStaked - amount }

/-- Modelled from the spec: the payout step of a claim — zero the
account's accrued-reward record and instruct the port to move that
amount of the reward asset from custody to the account (custody
decreases by it). -/
def payout (s1 : LedgerState) (caller : Nat) : LedgerState :=
  { s1 with
    accruedRewards := fun x => if x = caller then 0 else s1.accruedRewards x
    rewardCustody := s1.rewardCustody - s1.accruedRewards caller }

/-- Modelled from the spec: `getReward(account)` checkpoints the account;
when the checkpointed accrued reward is zero it is a no-op, otherwise it
pays the accrued reward out. -/
def getReward (t caller : Nat) (s : LedgerState) : LedgerState :=
  let s1 := checkpoint t s (some caller)
  if s1.accruedRewards caller = 0 then s1 else payout s1 caller

/-- Modelled from the spec: the reward rate a `notifyReward(amount)` call
at time `t` computes — `amount / rewardsDuration` once the previous
period has finished, otherwise the leftover of the running period is
rolled into the new rate. -/
def newRewardRate (t amount : Nat) (s : LedgerState) : Nat :=
  if s.periodFinish ≤ t then amount / s.rewardsDuration
  else (amount + (s.periodFinish - t) * s.rewardRate) / s.rewardsDuration

/-- Modelled from the spec: `notifyReward(amount)` is restricted to the
configured distributor identity (Unauthorized otherwise), checkpoints
globally, computes the new rate, fails with InsufficientFunding when the
new rate times the duration exceeds the reward custody balance, and
otherwise installs the new rate and opens a fresh period ending
`rewardsDuration` after `t`. -/
def notifyReward (t caller amount : Nat) (s : LedgerState) :
    Except LedgerError LedgerState :=
  if caller = s.rewardsDistribution then
    let s1 := checkpoint t s none
    let rate := newRewardRate t amount s1
    if s1.rewardCustody < rate * s1.rewardsDuration then .error .InsufficientFunding
    else .ok { s1 with
               rewardRate := rate
               lastUpdateTime := t
               periodFinish := t + s1.rewardsDuration }
  else .error .Unauthorized

/-- Modelled from the spec: `exit(account)` withdraws the full balance
(skipping the withdraw step when the balance is zero) and then claims. -/
def exitLedger (t caller : Nat) (s : LedgerState) : Except LedgerError LedgerState :=
  if s.balance caller = 0 then .ok (getReward t caller s)
  else
    match withdraw t caller (s.balance caller) s with
    | .error e => .error e
    | .ok s2 => .ok (getReward t caller s2)

/-- Modelled from the spec: a freshly constructed ledger — zero rate,
stake, accumulator and snapshots, with a configured distributor identity,
period duration and initial reward custody balance. -/
def initState (dist duration custody : Nat) : LedgerState :=
  { rewardRate := 0
    periodFinish := 0
    rewardsDuration := duration
    lastUpdateTime := 0
    rewardPerUnitStored := 0
    totalStaked := 0
    balance := fun _ => 0
    rewardPerUnitPaid := fun _ => 0
    accruedRewards := fun _ => 0
    rewardsDistribution := dist
    rewardCustody := custody }

/-- The concrete scenario of the test suite and of the spec's testable
properties, first step: on a fresh ledger with a 7-day duration whose
custody holds the 5000-unit budget, account 7 stakes 100 units at
time 0. -/
def stakeDemo : Except LedgerError LedgerState :=
  stake 0 7 (100 * SCALE) true (initState 1 (7 * DAY) (5000 * SCALE))

/-- The ledger state after the scenario's stake. -/
def stakeAfter : LedgerState :=
  match stakeDemo with
  | .ok s => s
  | .error _ => initState 0 0 0

/-- The scenario continued: the distributor (identity 1) notifies the
5000-unit budget at time 0. -/
def scenarioState : Except LedgerError LedgerState :=
  stakeDemo.bind (fun s => notifyReward 0 1 (5000 * SCALE) s)

/-- The ledger state after the scenario's stake and notification. -/
def scenarioAfter : LedgerState :=
  match scenarioState with
  | .ok s => s
  | .error _ => initState 0 0 0

/-- The scenario concluded: the staker withdraws its entire 100-unit
balance one day in. -/
def withdrawDemo : Except LedgerError LedgerState :=
  withdraw DAY 7 (100 * SCALE) scenarioAfter

/-- The ledger state after the scenario's full withdrawal. -/
def withdrawAfter : LedgerState :=
  match withdrawDemo with
  | .ok s => s
  | .error _ => initState 0 0 0

/-- A stake or withdraw operation, tagged with the time at which it runs,
the calling account and the amount (a stake's pull is taken to succeed). -/
inductive Op where
  | stakeOp (t caller amount : Nat)
  | withdrawOp (t caller amount : Nat)

/-- Apply one operation; a failing operation leaves the state unchanged
(every mutating operation either fully succeeds or is a no-op). -/
def applyOp (s : LedgerState) : Op → LedgerState
  | .stakeOp t c a =>
      match stake t c a true s with
      | .ok s2 => s2
      | .error _ => s
  | .withdrawOp t c a =>
      match withdraw t c a s with
      | .ok s2 => s2
      | .error _ => s

/-- Run a sequence of stake/withdraw operations. -/
def runOps (s : LedgerState) (ops : List Op) : LedgerState :=
  ops.foldl applyOp s

/-- Sum of the per-account balances over a finite set of accounts. -/
def sumBalances (s : LedgerState) (A : Finset Nat) : Nat :=
  A.sum s.balance

/-- The stake-total invariant relative to a support set: every account
outside `A` has a zero balance, and `totalStaked` is the sum of the
balances over `A`. -/
def TotalMatches (s : LedgerState) (A : Finset Nat) : Prop :=
  (∀ a, a ∉ A → s.balance a = 0) ∧ s.totalStaked = sumBalances s A

end SR

namespace CB

/-- The pair of contracts connect-bridge resolves on one layer: the
AddressResolver and the SynthetixBridge deployed there (addresses as
strings). -/
structure BridgeInstance where
  addressResolver : String
  synthetixBridge : String

/-- One externally visible action of the connect-bridge command: a
console log, an `importAddresses` transaction on an AddressResolver, or
a `setResolverAndSyncCache` transaction on a bridge contract. -/
inductive BridgeAction where
  | log (msg : String)
  | importAddresses (resolver : String) (names : List String) (addresses : List String)
  | setResolverAndSyncCache (bridge : String) (resolver : String)

/-- Whether an action issues a state-changing contract call (both
transaction kinds do; a log does not). -/
def isStateChanging : BridgeAction → Bool
  | .log _ => false
  | .importAddresses _ _ _ => true
  | .setResolverAndSyncCache _ _ => true

/-- The logs connectInstance emits after resolving one layer's contracts. -/
def connectInstanceLogs (inst : BridgeInstance) (bridgeName : String) : List BridgeAction :=
  [BridgeAction.log ("  > AddressResolver: " ++ inst.addressResolver),
   BridgeAction.log ("  > " ++ bridgeName ++ ": " ++ inst.synthetixBridge)]

/-- The ordered trace of external actions of `connectBridge` in
src/publish/src/commands/connect-bridge.js: it connects to both layers
(resolving AddressResolver and the bridge contract on each), logs the
names and addresses it wires on L1, and only when `dryRun` is unset
issues `importAddresses` on the L1 resolver and `setResolverAndSyncCache`
on SynthetixBridgeToBase; then the same for L2 with
SynthetixBridgeToOptimism. -/
def connectBridge (l1 l2 : BridgeInstance) (l1Messenger l2Messenger : String)
    (dryRun : Bool) : List BridgeAction :=
  [BridgeAction.log "> Connecting with L1 instance..."]
  ++ connectInstanceLogs l1 "SynthetixBridgeToOptimism"
  ++ [BridgeAction.log "> Connecting with L2 instance..."]
  ++ connectInstanceLogs l2 "SynthetixBridgeToBase"
  ++ [BridgeAction.log "> Connecting bridge on L1...",
      BridgeAction.log ("ext:Messenger,ovm:SynthetixBridgeToBase "
        ++ l1Messenger ++ "," ++ l2.synthetixBridge)]
  ++ (if dryRun then []
      else [BridgeAction.importAddresses l1.addressResolver
              ["ext:Messenger", "ovm:SynthetixBridgeToBase"]
              [l1Messenger, l2.synthetixBridge],
            BridgeAction.setResolverAndSyncCache l2.synthetixBridge l1.addressResolver])
  ++ [BridgeAction.log "> Connecting bridge on L2...",
      BridgeAction.log ("ext:Messenger,base:SynthetixBridgeToOptimism "
        ++ l2Messenger ++ "," ++ l1.synthetixBridge)]
  ++ (if dryRun then []
      else [BridgeAction.importAddresses l2.addressResolver
              ["ext:Messenger", "base:SynthetixBridgeToOptimism"]
              [l2Messenger, l1.synthetixBridge],
            BridgeAction.setResolverAndSyncCache l1.synthetixBridge l2.addressResolver])

end CB

namespace SR

@[simp]
theorem checkpoint_rewardRate (t : Nat) (s : LedgerState) (acct : Option Nat) :
    (checkpoint t s acct).rewardRate = s.rewardRate := by cases acct <;> rfl

@[simp]
theorem checkpoint_periodFinish (t : Nat) (s : LedgerState) (acct : Option Nat) :
    (checkpoint t s acct).periodFinish = s.periodFinish := by cases acct <;> rfl

@[simp]
theorem checkpoint_rewardsDuration (t : Nat) (s : LedgerState) (acct : Option Nat) :
    (checkpoint t s acct).rewardsDuration = s.rewardsDuration := by cases acct <;> rfl

@[simp]
theorem checkpoint_totalStaked (t : Nat) (s : LedgerState) (acct : Option Nat) :
    (checkpoint t s acct).totalStaked = s.totalStaked := by cases acct <;> rfl

@[simp]
theorem checkpoint_balance (t : Nat) (s : LedgerState) (acct : Option Nat) :
    (checkpoint t s acct).balance = s.balance := by cases acct <;> rfl

@[simp]
theorem checkpoint_rewardsDistribution (t : Nat) (s : LedgerState) (acct : Option Nat) :
    (checkpoint t s acct).rewardsDistribution = s.rewardsDistribution := by cases acct <;> rfl

@[simp]
theorem checkpoint_rewardCustody (t : Nat) (s : LedgerState) (acct : Option Nat) :
    (checkpoint t s acct).rewardCustody = s.rewardCustody := by cases acct <;> rfl

@[simp]
theorem newRewardRate_checkpoint (t amt : Nat) (s : LedgerState) (acct : Option Nat) :
    newRewardRate t amt (checkpoint t s acct) = newRewardRate t amt s := by
  cases acct <;> rfl

theorem checkpoint_paid_self (t a : Nat) (s : LedgerState) :
    (checkpoint t s (some a)).rewardPerUnitPaid a = rewardPerUnit t s := by
  simp [checkpoint]

theorem checkpoint_accrued_self (t a : Nat) (s : LedgerState) :
    (checkpoint t s (some a)).accruedRewards a = earned t s a := by
  simp [checkpoint]

theorem rewardPerUnit_checkpoint (t : Nat) (s : LedgerState) (acct : Option Nat) :
    rewardPerUnit t (checkpoint t s acct) = rewardPerUnit t s := by
  cases acct <;>
    simp [checkpoint, rewardPerUnit, lastTimeApplicable]

theorem stake_ok_eq (t c amt : Nat) (pull : Bool) (s s' : LedgerState)
    (h : stake t c amt pull s = .ok s') :
    amt ≠ 0 ∧
    s' = { checkpoint t s (some c) with
           balance := fun x => if x = c then s.balance c + amt else s.balance x
           totalStaked := s.totalStaked + amt } := by
  unfold stake at h
  split at h
  · exact absurd h (by simp)
  · split at h
    · exact absurd h (by simp)
    · injection h with h
      subst h
      refine ⟨by assumption, rfl⟩

theorem withdraw_ok_eq (t c amt : Nat) (s s' : LedgerState)
    (h : withdraw t c amt s = .ok s') :
    amt ≠ 0 ∧ amt ≤ s.balance c ∧
    s' = { checkpoint t s (some c) with
           balance := fun x => if x = c then s.balance c - amt else s.balance x
           totalStaked := s.totalStaked - amt } := by
  unfold withdraw at h
  split at h
  · exact absurd h (by simp)
  · split at h
    · exact absurd h (by simp)
    · injection h with h
      subst h
      refine ⟨by assumption, by omega, rfl⟩

theorem notifyReward_ok_eq (t c amt : Nat) (s s' : LedgerState)
    (h : notifyReward t c amt s = .ok s') :
    c = s.rewardsDistribution ∧
    newRewardRate t amt s * s.rewardsDuration ≤ s.rewardCustody ∧
    s' = { checkpoint t s none with
           rewardRate := newRewardRate t amt s
           lastUpdateTime := t
           periodFinish := t + s.rewardsDuration } := by
  unfold notifyReward at h
  split at h
  · simp only [] at h
    split at h
    · exact absurd h (by simp)
    · next hf =>
        injection h with h
        subst h
        refine ⟨by assumption, ?_, rfl⟩
        simp only [checkpoint_rewardCustody, checkpoint_rewardsDuration,
          newRewardRate_checkpoint] at hf
        omega
  · exact absurd h (by simp)

end SR

namespace SR

@[simp]
theorem payout_totalStaked (s1 : LedgerState) (c : Nat) :
    (payout s1 c).totalStaked = s1.totalStaked := rfl

@[simp]
theorem payout_rewardPerUnitStored (s1 : LedgerState) (c : Nat) :
    (payout s1 c).rewardPerUnitStored = s1.rewardPerUnitStored := rfl

@[simp]
theorem payout_lastUpdateTime (s1 : LedgerState) (c : Nat) :
    (payout s1 c).lastUpdateTime = s1.lastUpdateTime := rfl

@[simp]
theorem payout_rewardRate (s1 : LedgerState) (c : Nat) :
    (payout s1 c).rewardRate = s1.rewardRate := rfl

@[simp]
theorem payout_periodFinish (s1 : LedgerState) (c : Nat) :
    (payout s1 c).periodFinish = s1.periodFinish := rfl

@[simp]
theorem payout_balance (s1 : LedgerState) (c : Nat) :
    (payout s1 c).balance = s1.balance := rfl

@[simp]
theorem payout_rewardPerUnitPaid (s1 : LedgerState) (c : Nat) :
    (payout s1 c).rewardPerUnitPaid = s1.rewardPerUnitPaid := rfl

@[simp]
theorem payout_accrued_self (s1 : LedgerState) (c : Nat) :
    (payout s1 c).accruedRewards c = 0 := by
  simp [payout]

@[simp]
theorem payout_rewardCustody (s1 : LedgerState) (c : Nat) :
    (payout s1 c).rewardCustody = s1.rewardCustody - s1.accruedRewards c := rfl

theorem rewardPerUnit_congr (t : Nat) (u s : LedgerState)
    (h1 : u.totalStaked = s.totalStaked)
    (h2 : u.rewardPerUnitStored = s.rewardPerUnitStored)
    (h3 : u.lastUpdateTime = s.lastUpdateTime)
    (h4 : u.rewardRate = s.rewardRate)
    (h5 : u.periodFinish = s.periodFinish) :
    rewardPerUnit t u = rewardPerUnit t s := by
  simp only [rewardPerUnit, lastTimeApplicable, h1, h2, h3, h4, h5]

theorem rewardPerUnit_payout (t c : Nat) (s1 : LedgerState) :
    rewardPerUnit t (payout s1 c) = rewardPerUnit t s1 :=
  rewardPerUnit_congr t _ s1 rfl rfl rfl rfl rfl

theorem getReward_accrued_self_zero (t a : Nat) (s : LedgerState) :
    (getReward t a s).accruedRewards a = 0 := by
  unfold getReward
  simp only []
  split
  · next h => exact h
  · exact payout_accrued_self _ a

theorem getReward_custody (t a : Nat) (s : LedgerState) :
    (getReward t a s).rewardCustody = s.rewardCustody - earned t s a := by
  unfold getReward
  simp only []
  split
  · next h =>
      rw [checkpoint_accrued_self] at h
      simp [h]
  · simp [checkpoint_accrued_self]

theorem earned_getReward_self (t a : Nat) (s : LedgerState) :
    earned t (getReward t a s) a = 0 := by
  unfold getReward
  simp only []
  split
  · next h =>
      simp only [earned, checkpoint_paid_self, rewardPerUnit_checkpoint, h]
      simp
  · simp only [earned, payout_accrued_self, payout_rewardPerUnitPaid,
      payout_balance, rewardPerUnit_payout, checkpoint_paid_self,
      rewardPerUnit_checkpoint, checkpoint_balance]
    simp

end SR

namespace SR

theorem sum_update_insert (A : Finset Nat) (f : Nat → Nat) (c v : Nat)
    (h0 : c ∉ A → f c = 0) :
    (insert c A).sum (fun x => if x = c then v else f x) + f c = A.sum f + v := by
  by_cases hc : c ∈ A
  · rw [Finset.insert_eq_self.mpr hc]
    have h1 : A.sum (fun x => if x = c then v else f x) = v + (A.erase c).sum f := by
      rw [← Finset.add_sum_erase A (fun x => if x = c then v else f x) hc]
      rw [if_pos rfl]
      congr 1
      refine Finset.sum_congr rfl ?_
      intro x hx
      rw [if_neg (Finset.ne_of_mem_erase hx)]
    have h2 : A.sum f = f c + (A.erase c).sum f := (Finset.add_sum_erase A f hc).symm
    omega
  · rw [Finset.sum_insert hc]
    have h1 : A.sum (fun x => if x = c then v else f x) = A.sum f := by
      refine Finset.sum_congr rfl ?_
      intro x hx
      rw [if_neg ?_]
      intro hxc
      subst hxc
      exact hc hx
    rw [if_pos rfl, h1, h0 hc]
    omega

theorem applyOp_preserves (s : LedgerState) (A : Finset Nat) (op : Op)
    (h : TotalMatches s A) : ∃ B, TotalMatches (applyOp s op) B := by
  obtain ⟨hsupp, hsum⟩ := h
  cases op with
  | stakeOp t c amt =>
      rw [applyOp]
      cases he : stake t c amt true s with
      | error e => exact ⟨A, hsupp, hsum⟩
      | ok s2 =>
          obtain ⟨hamt, rfl⟩ := stake_ok_eq t c amt true s s2 he
          refine ⟨insert c A, ?_, ?_⟩
          · intro a ha
            have hac : a ≠ c := fun hh => ha (hh ▸ Finset.mem_insert_self c A)
            have haA : a ∉ A := fun hh => ha (Finset.mem_insert_of_mem hh)
            show (if a = c then s.balance c + amt else s.balance a) = 0
            rw [if_neg hac]
            exact hsupp a haA
          · have key := sum_update_insert A s.balance c (s.balance c + amt)
              (fun hcA => hsupp c hcA)
            show s.totalStaked + amt
              = (insert c A).sum (fun x => if x = c then s.balance c + amt else s.balance x)
            unfold sumBalances at hsum
            omega
  | withdrawOp t c amt =>
      rw [applyOp]
      cases he : withdraw t c amt s with
      | error e => exact ⟨A, hsupp, hsum⟩
      | ok s2 =>
          obtain ⟨hamt, hle, rfl⟩ := withdraw_ok_eq t c amt s s2 he
          have hcA : c ∈ A := by
            by_contra hcA
            have hz := hsupp c hcA
            omega
          refine ⟨insert c A, ?_, ?_⟩
          · intro a ha
            have hac : a ≠ c := fun hh => ha (hh ▸ Finset.mem_insert_self c A)
            have haA : a ∉ A := fun hh => ha (Finset.mem_insert_of_mem hh)
            show (if a = c then s.balance c - amt else s.balance a) = 0
            rw [if_neg hac]
            exact hsupp a haA
          · have key := sum_update_insert A s.balance c (s.balance c - amt)
              (fun hcA2 => hsupp c hcA2)
            have hbal : s.balance c ≤ A.sum s.balance :=
              Finset.single_le_sum (fun i _ => Nat.zero_le (s.balance i)) hcA
            show s.totalStaked - amt
              = (insert c A).sum (fun x => if x = c then s.balance c - amt else s.balance x)
            unfold sumBalances at hsum
            omega

end SR

namespace SR

theorem runOps_preserves (ops : List Op) :
    ∀ (s : LedgerState) (A : Finset Nat),
      TotalMatches s A → ∃ B, TotalMatches (runOps s ops) B := by
  induction ops with
  | nil => exact fun s A h => ⟨A, h⟩
  | cons op ops ih =>
      intro s A h
      obtain ⟨B, hB⟩ := applyOp_preserves s A op h
      exact ih (applyOp s op) B hB

end SR

namespace SR

/-- C1: for every global reward state, `rewardPerUnit()` returns
`rewardPerUnitStored` unchanged when `totalStaked == 0` and otherwise
`rewardPerUnitStored + (lastTimeApplicable() - lastUpdateTime) *
rewardRate / totalStaked` at the fixed-point scale; it is 0 on a fresh
ledger before any stake or reward notification, and strictly positive in
the concrete scenario (stake of 100 units, 5000-unit notification, one
elapsed day). -/
theorem rewardPerUnit_spec :
    (∀ t s, s.totalStaked = 0 → rewardPerUnit t s = s.rewardPerUnitStored) ∧
    (∀ t s, s.totalStaked ≠ 0 →
      rewardPerUnit t s = s.rewardPerUnitStored
        + (lastTimeApplicable t s - s.lastUpdateTime) * s.rewardRate * SCALE
            / s.totalStaked) ∧
    (∀ t d dur c, rewardPerUnit t (initState d dur c) = 0) ∧
    (scenarioState = Except.ok scenarioAfter ∧ 0 < rewardPerUnit DAY scenarioAfter) := by
  refine ⟨fun t s h => by simp [rewardPerUnit, h],
          fun t s h => by simp [rewardPerUnit, h],
          fun t d dur c => by simp [rewardPerUnit, initState],
          rfl, by decide⟩

/-- C1 witness: the conditional parts of `rewardPerUnit_spec` applied at
concrete states — a fresh ledger (zero stake) and the scenario state
after its 100-unit stake. -/
theorem rewardPerUnit_spec_witness :
    rewardPerUnit 5 (initState 1 (7 * DAY) 0)
      = (initState 1 (7 * DAY) 0).rewardPerUnitStored ∧
    rewardPerUnit DAY scenarioAfter
      = scenarioAfter.rewardPerUnitStored
        + (lastTimeApplicable DAY scenarioAfter - scenarioAfter.lastUpdateTime)
            * scenarioAfter.rewardRate * SCALE / scenarioAfter.totalStaked :=
  ⟨rewardPerUnit_spec.1 5 (initState 1 (7 * DAY) 0) rfl,
   rewardPerUnit_spec.2.1 DAY scenarioAfter (by decide)⟩

/-- C2: for every account at every observation point, `earned(account)`
equals `balance[account] * (rewardPerUnit() - rewardPerUnitPaid[account])
/ SCALE + accruedRewards[account]`; with a zero snapshot and no accrued
carry-over this reduces to `balance * rewardPerUnit() / SCALE`. -/
theorem earned_formula :
    (∀ t s a, earned t s a =
      s.balance a * (rewardPerUnit t s - s.rewardPerUnitPaid a) / SCALE
        + s.accruedRewards a) ∧
    (∀ t s a, s.rewardPerUnitPaid a = 0 → s.accruedRewards a = 0 →
      earned t s a = s.balance a * rewardPerUnit t s / SCALE) := by
  refine ⟨fun t s a => rfl, fun t s a h1 h2 => ?_⟩
  simp [earned, h1, h2]

/-- C2 witness: the reduced form of `earned_formula` applied to the
scenario staker, whose snapshot and carry-over are both zero. -/
theorem earned_formula_witness :
    earned DAY scenarioAfter 7
      = scenarioAfter.balance 7 * rewardPerUnit DAY scenarioAfter / SCALE :=
  earned_formula.2 DAY scenarioAfter 7 (by decide) (by decide)

/-- C3: a successful `notifyReward(amount)` at time `t` sets
`rewardRate` to `amount / rewardsDuration` when `t >= periodFinish` and
to `(amount + (periodFinish - t) * rewardRate) / rewardsDuration` when
`t < periodFinish`, and in both cases sets `lastUpdateTime = t` and
`periodFinish = t + rewardsDuration`. -/
theorem notifyReward_success_spec :
    ∀ t c amt s s', notifyReward t c amt s = .ok s' →
      (s.periodFinish ≤ t → s'.rewardRate = amt / s.rewardsDuration) ∧
      (t < s.periodFinish →
        s'.rewardRate = (amt + (s.periodFinish - t) * s.rewardRate) / s.rewardsDuration) ∧
      s'.lastUpdateTime = t ∧ s'.periodFinish = t + s.rewardsDuration := by
  intro t c amt s s' h
  obtain ⟨-, -, rfl⟩ := notifyReward_ok_eq t c amt s s' h
  refine ⟨fun hle => ?_, fun hlt => ?_, rfl, rfl⟩
  · show newRewardRate t amt s = amt / s.rewardsDuration
    rw [newRewardRate, if_pos hle]
  · show newRewardRate t amt s
      = (amt + (s.periodFinish - t) * s.rewardRate) / s.rewardsDuration
    rw [newRewardRate, if_neg (by omega)]

/-- C3 witness: the scenario's notification (at time 0, with the previous
period already finished) applied through `notifyReward_success_spec`. -/
theorem notifyReward_success_spec_witness :
    scenarioAfter.rewardRate = 5000 * SCALE / (7 * DAY) ∧
    scenarioAfter.lastUpdateTime = 0 ∧
    scenarioAfter.periodFinish = 0 + 7 * DAY := by
  have hok : notifyReward 0 1 (5000 * SCALE) stakeAfter = Except.ok scenarioAfter := by
    rfl
  have h := notifyReward_success_spec 0 1 (5000 * SCALE) stakeAfter scenarioAfter hok
  refine ⟨?_, h.2.2.1, ?_⟩
  · rw [h.1 (by decide)]
    decide
  · rw [h.2.2.2]
    decide

end SR

namespace SR

/-- C4: an authorized `notifyReward(amount)` fails with
InsufficientFunding whenever the newly computed reward rate times the
duration exceeds the reward-asset balance held in custody, and every
successful `notifyReward` commits only to rewards it can pay
(`rewardRate * rewardsDuration` at most the custody balance). -/
theorem notifyReward_insolvency_guard :
    (∀ t c amt s, c = s.rewardsDistribution →
      s.rewardCustody < newRewardRate t amt s * s.rewardsDuration →
      notifyReward t c amt s = .error .InsufficientFunding) ∧
    (∀ t c amt s s', notifyReward t c amt s = .ok s' →
      s'.rewardRate * s'.rewardsDuration ≤ s'.rewardCustody) := by
  constructor
  · intro t c amt s hc hf
    have hf2 : (checkpoint t s none).rewardCustody
        < newRewardRate t amt (checkpoint t s none) * (checkpoint t s none).rewardsDuration := by
      simpa using hf
    simp only [notifyReward, if_pos hc]
    rw [if_pos hf2]
  · intro t c amt s s' h
    obtain ⟨-, hle, rfl⟩ := notifyReward_ok_eq t c amt s s' h
    simpa using hle

/-- C4 witness: on a ledger whose custody is empty, the distributor's
5000-unit notification fails with InsufficientFunding; and the
scenario's successful notification satisfies the solvency bound. -/
theorem notifyReward_insolvency_guard_witness :
    notifyReward 0 1 (5000 * SCALE) (initState 1 (7 * DAY) 0)
      = .error .InsufficientFunding ∧
    scenarioAfter.rewardRate * scenarioAfter.rewardsDuration
      ≤ scenarioAfter.rewardCustody := by
  constructor
  · exact notifyReward_insolvency_guard.1 0 1 (5000 * SCALE)
      (initState 1 (7 * DAY) 0) rfl (by decide)
  · have hok : notifyReward 0 1 (5000 * SCALE) stakeAfter = Except.ok scenarioAfter := by
      rfl
    exact notifyReward_insolvency_guard.2 0 1 (5000 * SCALE) stakeAfter scenarioAfter hok

/-- C5 counterexample: withdrawing 100 units from an account with a zero
balance fails by the SafeMath subtraction-overflow trap (as the test
suite asserts via the revert reason "SafeMath: subtraction overflow"),
not with the InsufficientBalance error the claim names. -/
theorem withdraw_error_kind_counterexample :
    withdraw 0 7 (100 * SCALE) (initState 1 (7 * DAY) 0)
      = .error .SubtractionOverflow ∧
    withdraw 0 7 (100 * SCALE) (initState 1 (7 * DAY) 0)
      ≠ .error .InsufficientBalance := by
  refine ⟨rfl, ?_⟩
  intro h
  rw [show withdraw 0 7 (100 * SCALE) (initState 1 (7 * DAY) 0)
      = Except.error LedgerError.SubtractionOverflow from rfl] at h
  simp at h

/-- C5 (amended): for every account and every amount strictly greater
than the account balance, `withdraw` fails — leaving all ledger state
unchanged — but by the implicit SafeMath subtraction-overflow trap
rather than an explicit checked InsufficientBalance comparison. -/
theorem withdraw_overdraw_fails :
    ∀ t a amt s, s.balance a < amt →
      withdraw t a amt s = .error .SubtractionOverflow := by
  intro t a amt s h
  unfold withdraw
  rw [if_neg (by omega), if_pos h]

/-- C5 witness: the amended theorem applied to a 100-unit withdrawal
from a fresh ledger with nothing staked. -/
theorem withdraw_overdraw_fails_witness :
    withdraw 3 7 (100 * SCALE) (initState 1 (7 * DAY) 0)
      = .error .SubtractionOverflow :=
  withdraw_overdraw_fails 3 7 (100 * SCALE) (initState 1 (7 * DAY) 0) (by decide)

/-- C6: `notifyReward` called by any identity other than the configured
rewards distributor fails with Unauthorized (a failed call returns only
the error, so `rewardRate`, `periodFinish` and all other ledger state
are unchanged); a call that succeeds was necessarily made by the
distributor identity. -/
theorem notifyReward_auth_spec :
    (∀ t c amt s, c ≠ s.rewardsDistribution →
      notifyReward t c amt s = .error .Unauthorized) ∧
    (∀ t c amt s s', notifyReward t c amt s = .ok s' →
      c = s.rewardsDistribution) := by
  constructor
  · intro t c amt s h
    unfold notifyReward
    rw [if_neg h]
  · intro t c amt s s' h
    exact (notifyReward_ok_eq t c amt s s' h).1

/-- C6 witness: identity 2 (not the configured distributor 1) is
rejected with Unauthorized; the scenario's successful notification was
made by the distributor identity. -/
theorem notifyReward_auth_spec_witness :
    notifyReward 0 2 (5000 * SCALE) (initState 1 (7 * DAY) (5000 * SCALE))
      = .error .Unauthorized ∧
    (1 : Nat) = stakeAfter.rewardsDistribution := by
  constructor
  · exact notifyReward_auth_spec.1 0 2 (5000 * SCALE)
      (initState 1 (7 * DAY) (5000 * SCALE)) (by decide)
  · have hok : notifyReward 0 1 (5000 * SCALE) stakeAfter = Except.ok scenarioAfter := by
      rfl
    exact notifyReward_auth_spec.2 0 1 (5000 * SCALE) stakeAfter scenarioAfter hok

end SR

namespace SR

theorem earned_zero_balance (t : Nat) (s : LedgerState) (a : Nat)
    (h : s.balance a = 0) : earned t s a = s.accruedRewards a := by
  simp [earned, h]

theorem withdraw_full_state (t a : Nat) (s s' : LedgerState)
    (h : withdraw t a (s.balance a) s = .ok s') :
    s'.balance a = 0 ∧ s'.accruedRewards a = earned t s a := by
  obtain ⟨hamt, hle, rfl⟩ := withdraw_ok_eq t a (s.balance a) s s' h
  constructor
  · show (if a = a then s.balance a - s.balance a else s.balance a) = 0
    rw [if_pos rfl, Nat.sub_self]
  · exact checkpoint_accrued_self t a s

/-- C7: `getReward(account)` checkpoints the account and always leaves
`accruedRewards[account]` zero, instructing the transfer of exactly the
checkpointed earned amount out of custody, so that `earned(account)` is
0 immediately afterwards (same observation time, no intervening period
change); when the checkpointed accrued reward is zero it is a no-op
beyond the checkpoint itself. -/
theorem getReward_claim_spec :
    (∀ t a s, earned t (getReward t a s) a = 0) ∧
    (∀ t a s, (getReward t a s).accruedRewards a = 0 ∧
      (getReward t a s).rewardCustody = s.rewardCustody - earned t s a) ∧
    (∀ t a s, (checkpoint t s (some a)).accruedRewards a = 0 →
      getReward t a s = checkpoint t s (some a)) := by
  refine ⟨fun t a s => earned_getReward_self t a s,
          fun t a s => ⟨getReward_accrued_self_zero t a s, getReward_custody t a s⟩,
          fun t a s h => ?_⟩
  unfold getReward
  simp only []
  rw [if_pos h]

/-- C7 witness: after the scenario staker claims one day in, its earned
amount is 0; and on a fresh ledger (nothing accrued) the claim is a
no-op beyond the checkpoint. -/
theorem getReward_claim_spec_witness :
    earned DAY (getReward DAY 7 scenarioAfter) 7 = 0 ∧
    getReward 0 3 (initState 1 (7 * DAY) 0)
      = checkpoint 0 (initState 1 (7 * DAY) 0) (some 3) :=
  ⟨getReward_claim_spec.1 DAY 7 scenarioAfter,
   getReward_claim_spec.2.2 0 3 (initState 1 (7 * DAY) 0) (by decide)⟩

/-- C8: for every sequence of stake and withdraw operations,
`totalStaked` equals the sum of the per-account balances at every
observation point (relative to any support set of the starting state);
each successful stake increases and each successful withdraw decreases
both the account balance and `totalStaked` by exactly the amount. -/
theorem totalStaked_matches_sum :
    (∀ s A ops, TotalMatches s A → ∃ B, TotalMatches (runOps s ops) B) ∧
    (∀ t c amt pull s s', stake t c amt pull s = .ok s' →
       s'.balance c = s.balance c + amt ∧ s'.totalStaked = s.totalStaked + amt) ∧
    (∀ t c amt s s', withdraw t c amt s = .ok s' → s.balance c ≤ s.totalStaked →
       s'.balance c + amt = s.balance c ∧ s'.totalStaked + amt = s.totalStaked) := by
  refine ⟨fun s A ops h => runOps_preserves ops s A h, ?_, ?_⟩
  · intro t c amt pull s s' h
    obtain ⟨-, rfl⟩ := stake_ok_eq t c amt pull s s' h
    constructor
    · show (if c = c then s.balance c + amt else s.balance c) = s.balance c + amt
      rw [if_pos rfl]
    · rfl
  · intro t c amt s s' h hbt
    obtain ⟨hamt, hle, rfl⟩ := withdraw_ok_eq t c amt s s' h
    constructor
    · show (if c = c then s.balance c - amt else s.balance c) + amt = s.balance c
      rw [if_pos rfl]
      omega
    · show (s.totalStaked - amt) + amt = s.totalStaked
      omega

/-- C8 witness: the invariant carried across the scenario's stake
starting from the empty support set, and the exact balance/total changes
of the scenario's successful stake and full withdrawal. -/
theorem totalStaked_matches_sum_witness :
    (∃ B, TotalMatches
        (runOps (initState 1 (7 * DAY) (5000 * SCALE)) [Op.stakeOp 0 7 (100 * SCALE)]) B) ∧
    stakeAfter.totalStaked
      = (initState 1 (7 * DAY) (5000 * SCALE)).totalStaked + 100 * SCALE ∧
    withdrawAfter.totalStaked + 100 * SCALE = scenarioAfter.totalStaked := by
  refine ⟨totalStaked_matches_sum.1 (initState 1 (7 * DAY) (5000 * SCALE)) ∅
            [Op.stakeOp 0 7 (100 * SCALE)] ⟨fun a _ => rfl, by simp [sumBalances, initState]⟩, ?_, ?_⟩
  · exact (totalStaked_matches_sum.2.1 0 7 (100 * SCALE) true
      (initState 1 (7 * DAY) (5000 * SCALE)) stakeAfter (by rfl)).2
  · exact (totalStaked_matches_sum.2.2 DAY 7 (100 * SCALE) scenarioAfter withdrawAfter
      (by rfl) (by decide)).2

/-- C9: per-account accrual snapshots persist after a full withdrawal —
when the stake total is zero `earned` does not change with time, and
after an account withdraws its entire balance its earned value stays
frozen at the checkpointed amount for all later observation times, the
amount remaining recorded in `accruedRewards` and claimable (a later
`getReward` zeroes it and moves exactly that amount out of custody). -/
theorem earned_persists_after_full_withdraw :
    (∀ t1 t2 s a, s.totalStaked = 0 → earned t1 s a = earned t2 s a) ∧
    (∀ t a amt s s', withdraw t a amt s = .ok s' → amt = s.balance a →
       (∀ t1 t2, earned t1 s' a = earned t2 s' a) ∧
       (∀ t1, earned t1 s' a = earned t s a) ∧
       s'.accruedRewards a = earned t s a ∧
       (∀ t2, (getReward t2 a s').accruedRewards a = 0 ∧
              (getReward t2 a s').rewardCustody = s'.rewardCustody - earned t s a)) := by
  constructor
  · intro t1 t2 s a h
    simp [earned, rewardPerUnit, h]
  · intro t a amt s s' h ha
    subst ha
    obtain ⟨hb0, hacc⟩ := withdraw_full_state t a s s' h
    have hE : ∀ t1, earned t1 s' a = earned t s a :=
      fun t1 => (earned_zero_balance t1 s' a hb0).trans hacc
    refine ⟨fun t1 t2 => (hE t1).trans (hE t2).symm, hE, hacc, fun t2 => ?_⟩
    refine ⟨getReward_accrued_self_zero t2 a s', ?_⟩
    rw [getReward_custody t2 a s', hE t2]

/-- C9 witness: after the scenario's full withdrawal one day in, the
staker's earned value is the same at day 2 and day 3, equal to its value
at the moment of withdrawal, and a later claim zeroes the record. -/
theorem earned_persists_after_full_withdraw_witness :
    earned (2 * DAY) withdrawAfter 7 = earned (3 * DAY) withdrawAfter 7 ∧
    earned (2 * DAY) withdrawAfter 7 = earned DAY scenarioAfter 7 ∧
    withdrawAfter.accruedRewards 7 = earned DAY scenarioAfter 7 ∧
    (getReward (2 * DAY) 7 withdrawAfter).accruedRewards 7 = 0 := by
  have h := earned_persists_after_full_withdraw.2 DAY 7 (100 * SCALE) scenarioAfter
    withdrawAfter (by rfl) (by decide)
  exact ⟨h.1 (2 * DAY) (3 * DAY), h.2.1 (2 * DAY), h.2.2.1, (h.2.2.2 (2 * DAY)).1⟩

end SR

namespace CB

/-- C10: for every invocation of connectBridge with the dryRun option
set, the action trace contains no state-changing contract call — neither
importAddresses on an AddressResolver nor setResolverAndSyncCache on a
bridge contract — only contract resolution and logging of the addresses
it would wire. -/
theorem connectBridge_dryRun_readonly :
    ∀ l1 l2 m1 m2,
      (connectBridge l1 l2 m1 m2 true).filter (fun a => isStateChanging a) = [] := by
  intro l1 l2 m1 m2
  rfl

end CB
